import Mathlib

/-!
Verification development for the ollama-mcp-agent repository.

The two subsystems covered by the claims are embedded shallowly:

* the raw-terminal input state machine (class RawInputHandler in the CLI
  source file, src/unnamed/part_001 lines 16-418): the pure state part of
  the keystroke handler is translated; terminal escape-sequence writes are
  side effects on the screen only and carry no state;
* the tool-call orchestrator (class Agent, src/unnamed/part_001 lines
  1163-1365) together with the tool client dispatch
  (MCPClientManager.callTool, src/unnamed/part_000 lines 98-124);
* the cancellable round-trip runner (the onSubmit closure of runCLI,
  src/unnamed/part_001 lines 738-868), modelled as a state machine over
  the waiting flag, the 1-second interval timer, the transient escape-key
  listener and the AbortController.

Keystrokes are received as decoded strings; we represent a delivered key
chunk as its list of character codes (List Nat), and the editable buffer
likewise.  The model client and the remote MCP servers are external
collaborators and enter as function-valued oracles.
-/

namespace OllamaMcpAgent

/- ───────────────────────────────────────────────────────────────────────
   Input state machine (RawInputHandler, src/unnamed/part_001)
   ─────────────────────────────────────────────────────────────────────── -/

/-- The two transient overlay panels (field panelVisible, line 23). -/
inductive Panel where
  | shortcuts
  | commands
deriving DecidableEq

/-- InputState, translated from the interface at lines 16-25.  The buffer
and history entries are lists of character codes; historyIndex is an Int
because the constructor initialises it to -1 (line 195). -/
structure InputState where
  buffer : List Nat
  cursorPos : Nat
  history : List (List Nat)
  historyIndex : Int
  thinkingEnabled : Bool
  modelSupportsThinking : Bool
  panelVisible : Option Panel
  waiting : Bool
deriving DecidableEq

/-- The state built by the RawInputHandler constructor (lines 191-200). -/
def initialInputState (modelSupportsThinking : Bool) : InputState :=
  { buffer := []
    cursorPos := 0
    history := []
    historyIndex := -1
    thinkingEnabled := true
    modelSupportsThinking := modelSupportsThinking
    panelVisible := none
    waiting := false }

/-- The fixed 3-byte up-arrow sequence ESC [ A (line 358). -/
def upKey : List Nat := [27, 91, 65]

/-- The fixed 3-byte down-arrow sequence ESC [ B (line 371). -/
def downKey : List Nat := [27, 91, 66]

/-- Whitespace codes removed by String.prototype.trim (ASCII part). -/
def isWS (c : Nat) : Bool :=
  c == 9 || c == 10 || c == 11 || c == 12 || c == 13 || c == 32

/-- JS String.prototype.trim on a list of character codes. -/
def trimCodes (l : List Nat) : List Nat :=
  ((l.dropWhile isWS).reverse.dropWhile isWS).reverse

/-- JS history[idx] || "" (lines 362 and 375): the entry when the index is
in range, the empty string otherwise (or when the entry itself is empty,
which coincide here). -/
def histGet (hist : List (List Nat)) (i : Int) : List Nat :=
  if 0 ≤ i then hist.getD i.toNat [] else []

/-- The tail of handleKey after the panel branches (lines 302-410):
Tab, Enter, Backspace, arrows, the two panel openers and plain printable
input.  Returns the successor state together with the submitted input, if
this keystroke triggered the submit callback (line 339). -/
def handleRest (s : InputState) (key : List Nat) : InputState × Option (List Nat) :=
  let code := key.headD 0
  if code = 9 ∧ s.modelSupportsThinking then
    -- Tab - toggle thinking (lines 303-319); repaints only the hint line
    ({ s with thinkingEnabled := !s.thinkingEnabled }, none)
  else if code = 13 then
    -- Enter - submit (lines 322-344)
    let input := trimCodes s.buffer
    if input ≠ [] then
      let h := s.history ++ [input]
      ({ s with history := h, historyIndex := (h.length : Int),
                buffer := [], cursorPos := 0 }, some input)
    else
      ({ s with buffer := [], cursorPos := 0 }, none)
  else if code = 127 ∨ code = 8 then
    -- Backspace with no panel (lines 347-355)
    if s.buffer.length > 0 then
      let b := s.buffer.dropLast
      ({ s with buffer := b, cursorPos := b.length }, none)
    else
      (s, none)
  else if key = upKey then
    -- Up arrow (lines 358-369)
    if s.historyIndex > 0 then
      let i := s.historyIndex - 1
      let b := histGet s.history i
      ({ s with historyIndex := i, buffer := b, cursorPos := b.length }, none)
    else
      (s, none)
  else if key = downKey then
    -- Down arrow (lines 371-385)
    if s.historyIndex < (s.history.length : Int) - 1 then
      let i := s.historyIndex + 1
      let b := histGet s.history i
      ({ s with historyIndex := i, buffer := b, cursorPos := b.length }, none)
    else
      ({ s with historyIndex := (s.history.length : Int),
                buffer := [], cursorPos := 0 }, none)
  else if key = [63] ∧ s.buffer.length = 0 then
    -- the question mark opens the shortcuts panel (lines 388-392)
    ({ s with panelVisible := some Panel.shortcuts }, none)
  else if key = [47] ∧ s.buffer.length = 0 then
    -- the slash opens the commands panel AND enters the buffer (lines 395-402)
    ({ s with buffer := [47], cursorPos := 1,
              panelVisible := some Panel.commands }, none)
  else if 32 ≤ code ∧ code < 127 then
    -- regular printable character (lines 405-409): the whole chunk appends
    let b := s.buffer ++ key
    ({ s with buffer := b, cursorPos := b.length }, none)
  else
    (s, none)

/-- The commands-panel branch of handleKey (lines 257-300), falling back
to handleRest when no panel is open or on the Enter fall-through. -/
def handleMain (s : InputState) (key : List Nat) : InputState × Option (List Nat) :=
  let code := key.headD 0
  if s.panelVisible = some Panel.commands then
    if code = 27 then
      -- Escape - dismiss and clear buffer (lines 258-268)
      ({ s with panelVisible := none, buffer := [], cursorPos := 0 }, none)
    else if code = 127 ∨ code = 8 then
      -- Backspace (lines 269-286)
      if s.buffer.length ≤ 1 then
        ({ s with panelVisible := none, buffer := [], cursorPos := 0 }, none)
      else
        let b := s.buffer.dropLast
        ({ s with buffer := b, cursorPos := b.length }, none)
    else if code = 13 then
      -- Enter - dismiss panel then fall through to submit (lines 287-290)
      handleRest { s with panelVisible := none } key
    else if 32 ≤ code ∧ code < 127 then
      -- regular character - append, keep panel (lines 291-296)
      let b := s.buffer ++ key
      ({ s with buffer := b, cursorPos := b.length }, none)
    else
      (s, none)
  else
    handleRest s key

/-- handleKey (lines 232-410): Ctrl+C, the waiting guard, and the
shortcuts-panel dismissal that reprocesses most keys.  Ctrl+C invokes the
exit callback (the process terminates); the state is returned unchanged. -/
def handleKey (s : InputState) (key : List Nat) : InputState × Option (List Nat) :=
  let code := key.headD 0
  if code = 3 then
    (s, none)
  else if s.waiting then
    (s, none)
  else if s.panelVisible = some Panel.shortcuts then
    -- any key dismisses the panel (lines 247-254); backspace/delete/escape
    -- are swallowed, every other key is then reprocessed
    let s1 := { s with panelVisible := none }
    if code = 127 ∨ code = 8 ∨ code = 27 then
      (s1, none)
    else
      handleMain s1 key
  else
    handleMain s key

/-- One keystroke, state part only. -/
def stepKey (s : InputState) (key : List Nat) : InputState :=
  (handleKey s key).1

/-- A sequence of keystrokes fed one at a time. -/
def runKeys (s : InputState) (keys : List (List Nat)) : InputState :=
  keys.foldl stepKey s

/- ───────────────────────────────────────────────────────────────────────
   Tool client (MCPClientManager, src/unnamed/part_000)
   ─────────────────────────────────────────────────────────────────────── -/

/-- A registered tool (interface MCPTool, part_000 lines 7-12).  The JSON
input schema is kept as an uninterpreted string. -/
structure MCPTool where
  serverName : String
  name : String
  description : String
  inputSchema : String
deriving DecidableEq

/-- A tool declaration in the model-client format (getOllamaTools,
part_000 lines 87-96). -/
structure OllamaTool where
  name : String
  description : String
  parameters : String
deriving DecidableEq

/-- The state of the tool client: the registered tools, the keys of the
connected clients map, and the remote callTool boundary as an oracle
returning either the extracted text or the message of a thrown error. -/
structure MCPState where
  tools : List MCPTool
  connectedServers : List String
  serverCall : String → String → Except String String

/-- getOllamaTools (part_000 lines 87-96). -/
def MCPState.getOllamaTools (m : MCPState) : List OllamaTool :=
  m.tools.map fun t => { name := t.name, description := t.description,
                         parameters := t.inputSchema }

/-- callTool (part_000 lines 98-124).  An unknown tool name and a
disconnected owning server are thrown errors with the messages built at
lines 105 and 110; the remote invocation itself is the external oracle. -/
def MCPState.callTool (m : MCPState) (toolName : String) (args : String) :
    Except String String :=
  match m.tools.find? (fun t => t.name == toolName) with
  | none => Except.error ("Tool not found: " ++ toolName)
  | some tool =>
    if m.connectedServers.contains tool.serverName then
      m.serverCall toolName args
    else
      Except.error ("Server not connected: " ++ tool.serverName)

/- ───────────────────────────────────────────────────────────────────────
   Tool-call orchestrator (class Agent, src/unnamed/part_001 lines 1163-1365)
   ─────────────────────────────────────────────────────────────────────── -/

/-- A role-tagged conversation message. -/
structure Message where
  role : String
  content : String
deriving DecidableEq

/-- A tool invocation requested by the model (ToolCall in the model
client); the argument object is kept as an uninterpreted string. -/
structure ToolCall where
  name : String
  arguments : String
deriving DecidableEq

/-- The model client reply: the assistant message plus the requested tool
invocations (OllamaClient.chat result; an absent tool_calls field is the
empty list). -/
structure ChatReply where
  message : Message
  toolCalls : List ToolCall
deriving DecidableEq

/-- The model runtime is an external collaborator: a function from the
conversation so far and the optionally attached tool declarations to a
reply. -/
abbrev ModelFn := List Message → Option (List OllamaTool) → ChatReply

/-- An export-transcript entry (interface ChatTurn, part_001 lines
1168-1173).  The Date timestamp is ambient wall-clock data with no
bearing on any claim and is omitted from the embedding. -/
structure ChatTurn where
  role : String
  content : String
  toolsUsed : Option (List String)
deriving DecidableEq

/-- The orchestrator state: the conversation history and export
transcript it owns, plus the configuration it was constructed with. -/
structure AgentState where
  conversationHistory : List Message
  chatHistory : List ChatTurn
  systemPrompt : String
  maxToolCalls : Nat
deriving DecidableEq

/-- The state after the Agent constructor and the method that seeds
conversationHistory with the single system message (part_001 lines
1193-1201). -/
def Agent.startState (systemPrompt : String) (maxTC : Nat) : AgentState :=
  { conversationHistory := [{ role := "system", content := systemPrompt }]
    chatHistory := []
    systemPrompt := systemPrompt
    maxToolCalls := maxTC }

/-- JS s || dflt on strings: dflt exactly when s is empty. -/
def jsOr (s dflt : String) : String :=
  if s = "" then dflt else s

/-- The tool-role message appended for one dispatch (part_001 lines
1261-1264 on success, 1271-1274 on a caught error). -/
def toolMsg : Except String String → Message
  | Except.ok r => { role := "tool", content := r }
  | Except.error e => { role := "tool", content := "Error: " ++ e }

/-- The mutable loop state of one Agent.chat turn: the conversation
history, the accumulated toolsUsed names, the toolCallCount counter, and
the ordered record of every callTool dispatch with its result. -/
structure LoopAcc where
  history : List Message
  toolsUsed : List String
  count : Nat
  dispatches : List (String × Except String String)

/-- The inner for-loop over one reply's tool calls (part_001 lines
1248-1276): each invocation increments toolCallCount, records the name,
dispatches, and appends the tool-role result (or error) message. -/
def processToolCalls (m : MCPState) (acc : LoopAcc) : List ToolCall → LoopAcc
  | [] => acc
  | tc :: rest =>
    let r := m.callTool tc.name tc.arguments
    processToolCalls m
      { history := acc.history ++ [toolMsg r]
        toolsUsed := acc.toolsUsed ++ [tc.name]
        count := acc.count + 1
        dispatches := acc.dispatches ++ [(tc.name, r)] } rest

/-- How one Agent.chat while-loop run ends: the model stopped requesting
tools (with the terminating reply), or the guard toolCallCount <
maxToolCalls failed. -/
inductive LoopResult where
  | noTools (acc : LoopAcc) (calls : List (Option (List OllamaTool))) (r : ChatReply)
  | budget (acc : LoopAcc) (calls : List (Option (List OllamaTool)))

/-- The accumulator carried out of the loop. -/
def LoopResult.acc : LoopResult → LoopAcc
  | LoopResult.noTools a _ _ => a
  | LoopResult.budget a _ => a

/-- The while-loop of Agent.chat (part_001 lines 1222-1277), fuel-indexed.
Each iteration checks toolCallCount < maxToolCalls, calls the model with
the declarations attached exactly when the registered list is non-empty
(line 1226: tools.length > 0 ? tools : undefined), appends the assistant
reply, exits when no tools were requested, and otherwise dispatches every
requested invocation.  Every continuing iteration raises count by at
least one, so fuel maxTC + 1 realises the unbounded source loop.  The
calls accumulator records, in order, the declaration argument of every
model call made. -/
def chatLoop (model : ModelFn) (m : MCPState) (tools : List OllamaTool)
    (maxTC : Nat) :
    Nat → LoopAcc → List (Option (List OllamaTool)) → LoopResult
  | 0, acc, calls => LoopResult.budget acc calls
  | Nat.succ fuel, acc, calls =>
    if acc.count < maxTC then
      let declArg := if 0 < tools.length then some tools else none
      let r := model acc.history declArg
      let acc1 := { acc with history := acc.history ++ [r.message] }
      if r.toolCalls.isEmpty then
        LoopResult.noTools acc1 (calls ++ [declArg]) r
      else
        chatLoop model m tools maxTC fuel
          (processToolCalls m acc1 r.toolCalls) (calls ++ [declArg])
    else
      LoopResult.budget acc calls

/-- Everything observable about one Agent.chat call: the final
conversation history, the returned AgentResponse fields (content and
toolsUsed), every dispatch, every model call's declaration argument, and
whether the turn ended by budget exhaustion. -/
structure TurnTrace where
  history : List Message
  toolsUsed : List String
  dispatches : List (String × Except String String)
  calls : List (Option (List OllamaTool))
  budgetExhausted : Bool
  content : String

/-- What Agent.chat does after its while-loop ends (part_001 lines
1233-1244 when the model stopped requesting tools, lines 1279-1293 after
budget exhaustion).  On exhaustion one final model call is made with no
tool declarations attached (line 1280), its content defaulting to the
literal "(No response)" placeholder when empty (line 1283); on a
tool-free reply the content is the reply's (possibly empty) text (line
1234).  Either way the assistant turn is pushed to the export transcript
with the accumulated tool names (undefined when none were used). -/
def finishTurn (model : ModelFn) (st1 : AgentState) :
    LoopResult → AgentState × TurnTrace
  | LoopResult.noTools acc calls r =>
    let content := jsOr r.message.content ""
    let trace : TurnTrace :=
      { history := acc.history, toolsUsed := acc.toolsUsed,
        dispatches := acc.dispatches, calls := calls,
        budgetExhausted := false, content := content }
    ({ st1 with
        conversationHistory := acc.history
        chatHistory := st1.chatHistory ++
          [{ role := "assistant", content := content,
             toolsUsed := if acc.toolsUsed.isEmpty then none
                          else some acc.toolsUsed }] }, trace)
  | LoopResult.budget acc calls =>
    let fr := model acc.history none
    let hist := acc.history ++ [fr.message]
    let content := jsOr fr.message.content "(No response)"
    let trace : TurnTrace :=
      { history := hist, toolsUsed := acc.toolsUsed,
        dispatches := acc.dispatches, calls := calls ++ [none],
        budgetExhausted := true, content := content }
    ({ st1 with
        conversationHistory := hist
        chatHistory := st1.chatHistory ++
          [{ role := "assistant", content := content,
             toolsUsed := if acc.toolsUsed.isEmpty then none
                          else some acc.toolsUsed }] }, trace)

/-- Agent.chat (part_001 lines 1203-1294).  The user message is pushed to
the export transcript and the conversation, the while-loop runs, and
finishTurn assembles the final state and the returned response. -/
def Agent.chat (model : ModelFn) (m : MCPState) (st : AgentState)
    (userMessage : String) : AgentState × TurnTrace :=
  let st1 : AgentState :=
    { st with
      chatHistory := st.chatHistory ++
        [{ role := "user", content := userMessage, toolsUsed := none }]
      conversationHistory := st.conversationHistory ++
        [{ role := "user", content := userMessage }] }
  let tools := m.getOllamaTools
  let acc0 : LoopAcc :=
    { history := st1.conversationHistory, toolsUsed := [], count := 0,
      dispatches := [] }
  finishTurn model st1
    (chatLoop model m tools st.maxToolCalls (st.maxToolCalls + 1) acc0 [])

/-- clearHistory (part_001 lines 1296-1305): the conversation collapses
back to the single system message and the export transcript empties. -/
def Agent.clearHistory (st : AgentState) : AgentState :=
  { st with
    conversationHistory := [{ role := "system", content := st.systemPrompt }]
    chatHistory := [] }

/-- A sequence of completed chat turns. -/
def Agent.runTurns (model : ModelFn) (m : MCPState) :
    AgentState → List String → AgentState
  | st, [] => st
  | st, msg :: rest =>
    Agent.runTurns model m (Agent.chat model m st msg).1 rest

/- ───────────────────────────────────────────────────────────────────────
   Cancellable round-trip runner (the onSubmit closure of runCLI,
   src/unnamed/part_001 lines 738-868)
   ─────────────────────────────────────────────────────────────────────── -/

/-- The runner resources touched by one submitted turn: the input
handler's waiting flag, whether the 1-second interval is live, how many
transient escape-key listeners are attached to stdin, and whether the
turn's AbortController has been aborted. -/
structure RunnerState where
  waiting : Bool
  timerActive : Bool
  escListeners : Nat
  aborted : Bool
deriving DecidableEq

/-- The user-visible outcome of one submitted turn. -/
inductive TurnOutcome where
  | answered (content : String) (toolsUsed : List String)
  | cancelled
  | errored (msg : String)
deriving DecidableEq

/-- One submitted turn (part_001 lines 738-868).  setWaiting(true), the
interval and the escape listener are set up (lines 740, 769, 772); a lone
ESC byte flips the cancelled flag, aborts the controller and clears the
interval (lines 762-768).  The race (lines 807-810) is decided by
escPressed (the polling branch can only resolve once cancelled is true)
and, when both branches are live, by cancelWins.  On the race resolving,
cleanup runs: clearInterval, removeListener, setWaiting(false) (lines
813-815).  When the chat promise rejects, the catch block (lines 856-868)
only restores the waiting flag: the interval and the listener are left
untouched. -/
def runTurn (chatResult : Except String (String × List String))
    (escPressed : Bool) (cancelWins : Bool) : RunnerState × TurnOutcome :=
  let s0 : RunnerState :=
    { waiting := true, timerActive := true, escListeners := 1, aborted := false }
  let s1 := if escPressed then { s0 with aborted := true, timerActive := false }
            else s0
  if escPressed && cancelWins then
    ({ s1 with timerActive := false, escListeners := s1.escListeners - 1,
               waiting := false }, TurnOutcome.cancelled)
  else
    match chatResult with
    | Except.ok r =>
      ({ s1 with timerActive := false, escListeners := s1.escListeners - 1,
                 waiting := false }, TurnOutcome.answered r.1 r.2)
    | Except.error e =>
      ({ s1 with waiting := false }, TurnOutcome.errored e)

/-- The call the runner makes at part_001 line 797:
session.agent.chat(input, abortController.signal).  Agent.chat is
declared with the single parameter userMessage (line 1203), so the
second argument is not bound to any parameter of the method and its body
cannot observe it; the call reduces to Agent.chat on the first argument
alone. -/
def chatCallSite (model : ModelFn) (m : MCPState) (st : AgentState)
    (userMessage : String) (signalAborted : Bool) : AgentState × TurnTrace :=
  Agent.chat model m st userMessage

/- ───────────────────────────────────────────────────────────────────────
   Auxiliary predicates and concrete scenarios used by the theorems
   ─────────────────────────────────────────────────────────────────────── -/

/-- A keystroke sequence never delivers a question mark while the text
typed so far is empty (the condition under which the source opens the
shortcuts overlay instead of echoing the character, part_001 line 388). -/
def qSafe : List Nat → List Nat → Bool
  | _, [] => true
  | acc, k :: ks => ((!(k == 63)) || (!(acc == []))) && qSafe (acc ++ [k]) ks

-- The dispatch record stores callTool results; their equality is decidable.
deriving instance DecidableEq for Except

/-- A tool client with one registered tool on one connected server whose
remote call succeeds. -/
def demoMCP : MCPState :=
  { tools := [{ serverName := "srv", name := "srv_tool", description := "",
                inputSchema := "" }]
    connectedServers := ["srv"]
    serverCall := fun _ _ => Except.ok "result" }

/-- A model that requests exactly one invocation of srv_tool in every
reply. -/
def oneToolModel : ModelFn := fun _ _ =>
  { message := { role := "assistant", content := "" }
    toolCalls := [{ name := "srv_tool", arguments := "" }] }

/-- A model that requests two invocations of srv_tool in every reply. -/
def twoToolModel : ModelFn := fun _ _ =>
  { message := { role := "assistant", content := "" }
    toolCalls := [{ name := "srv_tool", arguments := "" },
                  { name := "srv_tool", arguments := "" }] }

/-- A model that first requests a tool that is not registered anywhere,
then answers without tools. -/
def unknownToolModel : ModelFn := fun h _ =>
  if h.length ≤ 2 then
    { message := { role := "assistant", content := "" }
      toolCalls := [{ name := "nope", arguments := "" }] }
  else
    { message := { role := "assistant", content := "done" }, toolCalls := [] }

/-- A tool client with no registered tools. -/
def emptyMCP : MCPState :=
  { tools := [], connectedServers := [], serverCall := fun _ _ => Except.ok "" }

/-- Every dispatch whose callTool result was a thrown error has left a
tool-role message with the stringified error in the history, and its tool
name among the used tools. -/
def ErrRecorded (acc : LoopAcc) : Prop :=
  ∀ n e, (n, Except.error e) ∈ acc.dispatches →
    toolMsg (Except.error e) ∈ acc.history ∧ n ∈ acc.toolsUsed

/- ───────────────────────────────────────────────────────────────────────
   Helper lemmas
   ─────────────────────────────────────────────────────────────────────── -/

theorem finishTurn_dispatches (model : ModelFn) (st1 : AgentState)
    (res : LoopResult) :
    (finishTurn model st1 res).2.dispatches = res.acc.dispatches := by
  cases res <;> rfl

theorem finishTurn_toolsUsed (model : ModelFn) (st1 : AgentState)
    (res : LoopResult) :
    (finishTurn model st1 res).2.toolsUsed = res.acc.toolsUsed := by
  cases res <;> rfl

theorem finishTurn_history_mem (model : ModelFn) (st1 : AgentState)
    (res : LoopResult) (x : Message) (hx : x ∈ res.acc.history) :
    x ∈ (finishTurn model st1 res).2.history := by
  cases res with
  | noTools acc calls r => exact hx
  | budget acc calls => exact List.mem_append_left _ hx

theorem finishTurn_systemPrompt (model : ModelFn) (st1 : AgentState)
    (res : LoopResult) :
    (finishTurn model st1 res).1.systemPrompt = st1.systemPrompt := by
  cases res <;> rfl

theorem chat_systemPrompt (model : ModelFn) (m : MCPState) (st : AgentState)
    (u : String) :
    ((Agent.chat model m st u).1).systemPrompt = st.systemPrompt := by
  simp only [Agent.chat]
  rw [finishTurn_systemPrompt]

theorem runTurns_systemPrompt (model : ModelFn) (m : MCPState) :
    ∀ (inputs : List String) (st : AgentState),
      (Agent.runTurns model m st inputs).systemPrompt = st.systemPrompt := by
  intro inputs
  induction inputs with
  | nil => intro st; rfl
  | cons i is ih =>
    intro st
    rw [Agent.runTurns, ih, chat_systemPrompt]

theorem handleRest_idx (s : InputState) (k : List Nat)
    (h1 : -1 ≤ s.historyIndex)
    (h2 : s.historyIndex ≤ (s.history.length : Int)) :
    -1 ≤ (handleRest s k).1.historyIndex ∧
      (handleRest s k).1.historyIndex ≤
        (((handleRest s k).1.history).length : Int) := by
  simp only [handleRest]
  split_ifs <;>
    simp only [List.length_append, List.length_cons, List.length_nil] <;>
    omega

theorem handleMain_idx (s : InputState) (k : List Nat)
    (h1 : -1 ≤ s.historyIndex)
    (h2 : s.historyIndex ≤ (s.history.length : Int)) :
    -1 ≤ (handleMain s k).1.historyIndex ∧
      (handleMain s k).1.historyIndex ≤
        (((handleMain s k).1.history).length : Int) := by
  simp only [handleMain]
  split_ifs <;>
    first
    | exact handleRest_idx _ _ h1 h2
    | (dsimp only; omega)

theorem stepKey_idx_bounds (s : InputState) (k : List Nat)
    (h1 : -1 ≤ s.historyIndex)
    (h2 : s.historyIndex ≤ (s.history.length : Int)) :
    -1 ≤ (stepKey s k).historyIndex ∧
      (stepKey s k).historyIndex ≤ ((stepKey s k).history.length : Int) := by
  simp only [stepKey, handleKey]
  split_ifs <;>
    first
    | exact handleMain_idx _ _ h1 h2
    | (dsimp only; omega)

theorem handleRest_frame27 (s : InputState) (k : List Nat)
    (hk : k.headD 0 = 27) :
    (handleRest s k).1.history = s.history
  ∧ (handleRest s k).1.thinkingEnabled = s.thinkingEnabled
  ∧ (handleRest s k).1.modelSupportsThinking = s.modelSupportsThinking
  ∧ (handleRest s k).1.waiting = s.waiting := by
  simp only [handleRest]
  split_ifs <;> simp_all [upKey, downKey]

theorem handleMain_frame27 (s : InputState) (k : List Nat)
    (hk : k.headD 0 = 27) :
    (handleMain s k).1.history = s.history
  ∧ (handleMain s k).1.thinkingEnabled = s.thinkingEnabled
  ∧ (handleMain s k).1.modelSupportsThinking = s.modelSupportsThinking
  ∧ (handleMain s k).1.waiting = s.waiting := by
  simp only [handleMain]
  split_ifs <;>
    first
    | exact handleRest_frame27 _ _ hk
    | simp_all

theorem handleKey_frame27 (s : InputState) (k : List Nat)
    (hk : k.headD 0 = 27) :
    (stepKey s k).history = s.history
  ∧ (stepKey s k).thinkingEnabled = s.thinkingEnabled
  ∧ (stepKey s k).modelSupportsThinking = s.modelSupportsThinking
  ∧ (stepKey s k).waiting = s.waiting := by
  simp only [stepKey, handleKey]
  split_ifs <;>
    first
    | exact handleMain_frame27 _ _ hk
    | simp_all

theorem runKeys_idx_bounds :
    ∀ (ks : List (List Nat)) (s : InputState),
      -1 ≤ s.historyIndex → s.historyIndex ≤ (s.history.length : Int) →
      -1 ≤ (runKeys s ks).historyIndex ∧
        (runKeys s ks).historyIndex ≤ ((runKeys s ks).history.length : Int) := by
  intro ks
  induction ks with
  | nil => intro s h1 h2; exact ⟨h1, h2⟩
  | cons k ks ih =>
    intro s h1 h2
    have hstep := stepKey_idx_bounds s k h1 h2
    simpa [runKeys] using ih (stepKey s k) hstep.1 hstep.2

theorem handleRest_typing (s : InputState) (c : List Nat) (k : Nat)
    (hb : s.buffer = c) (hw : s.waiting = false)
    (hp : s.panelVisible ≠ some Panel.shortcuts)
    (hk1 : 32 ≤ k) (hk2 : k ≤ 126) (hq : k = 63 → c ≠ []) :
    (handleRest s [k]).1.buffer = c ++ [k]
  ∧ (handleRest s [k]).1.cursorPos = (c ++ [k]).length
  ∧ (handleRest s [k]).1.waiting = false
  ∧ (handleRest s [k]).1.panelVisible ≠ some Panel.shortcuts := by
  simp only [handleRest]
  split_ifs <;> (try simp_all [upKey, downKey]) <;> omega

theorem handleMain_typing (s : InputState) (c : List Nat) (k : Nat)
    (hb : s.buffer = c) (hw : s.waiting = false)
    (hp : s.panelVisible ≠ some Panel.shortcuts)
    (hk1 : 32 ≤ k) (hk2 : k ≤ 126) (hq : k = 63 → c ≠ []) :
    (handleMain s [k]).1.buffer = c ++ [k]
  ∧ (handleMain s [k]).1.cursorPos = (c ++ [k]).length
  ∧ (handleMain s [k]).1.waiting = false
  ∧ (handleMain s [k]).1.panelVisible ≠ some Panel.shortcuts := by
  simp only [handleMain]
  split_ifs <;>
    first
    | exact handleRest_typing s c k hb hw hp hk1 hk2 hq
    | ((try simp_all) <;> omega)

theorem typing_step (s : InputState) (c : List Nat) (k : Nat)
    (hb : s.buffer = c) (hw : s.waiting = false)
    (hp : s.panelVisible ≠ some Panel.shortcuts)
    (hk1 : 32 ≤ k) (hk2 : k ≤ 126) (hq : k = 63 → c ≠ []) :
    (stepKey s [k]).buffer = c ++ [k]
  ∧ (stepKey s [k]).cursorPos = (c ++ [k]).length
  ∧ (stepKey s [k]).waiting = false
  ∧ (stepKey s [k]).panelVisible ≠ some Panel.shortcuts := by
  simp only [stepKey, handleKey]
  split_ifs <;>
    first
    | exact handleMain_typing s c k hb hw hp hk1 hk2 hq
    | ((try simp_all) <;> omega)

theorem qSafe_take :
    ∀ (ks acc : List Nat) (n : Nat),
      qSafe acc ks = true → qSafe acc (ks.take n) = true := by
  intro ks
  induction ks with
  | nil => intro acc n h; simpa [List.take_nil] using h
  | cons k ks ih =>
    intro acc n h
    cases n with
    | zero => simp [qSafe]
    | succ n =>
      simp only [List.take_succ_cons, qSafe, Bool.and_eq_true] at h ⊢
      exact ⟨h.1, ih (acc ++ [k]) n h.2⟩

theorem typing_run :
    ∀ (ks : List Nat) (s : InputState) (c : List Nat),
      s.buffer = c → s.cursorPos = c.length → s.waiting = false →
      s.panelVisible ≠ some Panel.shortcuts →
      (∀ k ∈ ks, 32 ≤ k ∧ k ≤ 126) → qSafe c ks = true →
      (runKeys s (ks.map fun k => [k])).buffer = c ++ ks
    ∧ (runKeys s (ks.map fun k => [k])).cursorPos = (c ++ ks).length := by
  intro ks
  induction ks with
  | nil =>
    intro s c hb hcur hw hp hk hq
    constructor
    · simpa [runKeys] using hb
    · simpa [runKeys] using hcur
  | cons k ks ih =>
    intro s c hb hcur hw hp hk hq
    simp only [qSafe, Bool.and_eq_true, Bool.or_eq_true, Bool.not_eq_true',
      beq_eq_false_iff_ne, ne_eq] at hq
    obtain ⟨hq1, hq2⟩ := hq
    have hkk := hk k (List.mem_cons_self k ks)
    have hstep := typing_step s c k hb hw hp hkk.1 hkk.2
      (fun h1 => hq1.resolve_left (fun hn => hn h1))
    have hrun : runKeys s ((k :: ks).map fun j => [j]) =
        runKeys (stepKey s [k]) (ks.map fun j => [j]) := by
      simp [runKeys]
    have hrest := ih (stepKey s [k]) (c ++ [k]) hstep.1 hstep.2.1 hstep.2.2.1
      hstep.2.2.2 (fun j hj => hk j (List.mem_cons_of_mem k hj)) hq2
    rw [hrun]
    constructor
    · rw [hrest.1]; simp
    · rw [hrest.2]; simp

/- ───────────────────────────────────────────────────────────────────────
   Claim theorems
   ─────────────────────────────────────────────────────────────────────── -/

/-- C5 counterexample: the question mark has character code 63, inside the
claimed printable range 32-126, yet feeding it to the machine from the
empty buffer opens the shortcuts overlay instead of appending, so the
buffer does not equal the concatenation of the keystrokes. -/
theorem C5_counterexample :
    (32 ≤ 63 ∧ 63 ≤ 126)
  ∧ (runKeys (initialInputState true) [[63]]).buffer ≠ [63] := by
  decide

/-- C5 amended: for every sequence of printable keystrokes (codes 32-126)
that never delivers a question mark while the text typed so far is empty,
feeding them one at a time from the initial state yields, after every
step, a buffer equal to the concatenation of the keystrokes consumed so
far, with cursorPos equal to the buffer length. -/
theorem C5_amended_printable_typing (msT : Bool) (ks : List Nat) (n : Nat)
    (hk : ∀ k ∈ ks, 32 ≤ k ∧ k ≤ 126) (hq : qSafe [] ks = true) :
    (runKeys (initialInputState msT) ((ks.take n).map fun k => [k])).buffer
      = ks.take n
  ∧ (runKeys (initialInputState msT) ((ks.take n).map fun k => [k])).cursorPos
      = (runKeys (initialInputState msT) ((ks.take n).map fun k => [k])).buffer.length := by
  have hk' : ∀ k ∈ ks.take n, 32 ≤ k ∧ k ≤ 126 :=
    fun k hkm => hk k (List.take_subset n ks hkm)
  have hq' : qSafe [] (ks.take n) = true := qSafe_take ks [] n hq
  have h := typing_run (ks.take n) (initialInputState msT) [] rfl rfl rfl
    (by simp [initialInputState]) hk' hq'
  have hbuf : (runKeys (initialInputState msT)
      ((ks.take n).map fun k => [k])).buffer = ks.take n := by
    simpa using h.1
  refine ⟨hbuf, ?_⟩
  rw [h.2, hbuf]
  simp

/-- C5 witness: typing h then i from the initial state leaves the buffer
holding exactly those two codes with the cursor at its end. -/
theorem C5_witness :
    (runKeys (initialInputState true)
        ((([104, 105]).take 2).map fun k => [k])).buffer = ([104, 105]).take 2
  ∧ (runKeys (initialInputState true)
        ((([104, 105]).take 2).map fun k => [k])).cursorPos
      = (runKeys (initialInputState true)
          ((([104, 105]).take 2).map fun k => [k])).buffer.length :=
  C5_amended_printable_typing true [104, 105] 2 (by decide) (by decide)

/-- C1: when the lone-ESC cancellation signal fires before the
orchestrator promise resolves, the race does return the cancelled outcome
with waiting cleared and the AbortController in the aborted state — but
the abort signal passed at the call site is discarded by Agent.chat
(declared with the single parameter userMessage), so the orchestrator
computation, and with it the in-flight model call, is invariant under the
signal state and never observes the abort. -/
theorem C1_abort_signal_never_observed (model : ModelFn) (m : MCPState)
    (st : AgentState) (input : String)
    (cr : Except String (String × List String)) :
    chatCallSite model m st input true = chatCallSite model m st input false
  ∧ (runTurn cr true true).2 = TurnOutcome.cancelled
  ∧ (runTurn cr true true).1.waiting = false
  ∧ (runTurn cr true true).1.aborted = true := by
  refine ⟨rfl, ?_, ?_, ?_⟩ <;> simp [runTurn]

/-- C6: refuted on the rejection branch — when the orchestrator promise
rejects, the catch block only clears waiting: the 1-second interval is
still active and the transient escape-key listener is still attached
after the turn ends. -/
theorem C6_error_branch_leaks :
    runTurn (Except.error "boom") false false =
      ({ waiting := false, timerActive := true, escListeners := 1,
         aborted := false }, TurnOutcome.errored "boom") := by
  rfl

/-- C7: after submitting a, b, c, three Up keystrokes recall c, b, a, a
fourth Up stays at a, and three Down keystrokes then yield b, c and the
empty buffer. -/
theorem C7_history_navigation :
    (runKeys (initialInputState true)
      [[97],[13],[98],[13],[99],[13],upKey]).buffer = [99]
  ∧ (runKeys (initialInputState true)
      [[97],[13],[98],[13],[99],[13],upKey,upKey]).buffer = [98]
  ∧ (runKeys (initialInputState true)
      [[97],[13],[98],[13],[99],[13],upKey,upKey,upKey]).buffer = [97]
  ∧ (runKeys (initialInputState true)
      [[97],[13],[98],[13],[99],[13],upKey,upKey,upKey,upKey]).buffer = [97]
  ∧ (runKeys (initialInputState true)
      [[97],[13],[98],[13],[99],[13],upKey,upKey,upKey,upKey,
       downKey]).buffer = [98]
  ∧ (runKeys (initialInputState true)
      [[97],[13],[98],[13],[99],[13],upKey,upKey,upKey,upKey,
       downKey,downKey]).buffer = [99]
  ∧ (runKeys (initialInputState true)
      [[97],[13],[98],[13],[99],[13],upKey,upKey,upKey,upKey,
       downKey,downKey,downKey]).buffer = [] := by
  decide

/-- C9: after clearHistory, the conversation history is exactly the
single system-prompt message and the export transcript is empty,
regardless of the prior sequence of completed turns. -/
theorem C9_clear_history (model : ModelFn) (m : MCPState) (sp : String)
    (maxTC : Nat) (inputs : List String) :
    (Agent.clearHistory
        (Agent.runTurns model m (Agent.startState sp maxTC) inputs)).conversationHistory
      = [{ role := "system", content := sp }]
  ∧ (Agent.clearHistory
        (Agent.runTurns model m (Agent.startState sp maxTC) inputs)).chatHistory
      = [] := by
  constructor
  · simp [Agent.clearHistory, runTurns_systemPrompt, Agent.startState]
  · rfl

/-- C4 counterexample: immediately after construction (no keystrokes yet)
historyIndex is -1, outside the claimed interval [0, history.length]. -/
theorem C4_counterexample :
    ¬ (0 ≤ (runKeys (initialInputState true) []).historyIndex) := by
  decide

/-- C4 amended: in every reachable state of the input state machine,
historyIndex lies in the interval [-1, history.length]; the lower end -1
is the constructor's not-yet-navigated sentinel. -/
theorem C4_amended_index_bounds (msT : Bool) (ks : List (List Nat)) :
    -1 ≤ (runKeys (initialInputState msT) ks).historyIndex
  ∧ (runKeys (initialInputState msT) ks).historyIndex
      ≤ ((runKeys (initialInputState msT) ks).history.length : Int) := by
  exact runKeys_idx_bounds ks (initialInputState msT) (by simp [initialInputState])
    (by simp [initialInputState])

/-- C8 counterexample: in the reachable state with the shortcuts panel
open, an Up-arrow keystroke changes panelVisible, a field outside the
claimed may-differ set (historyIndex, buffer, cursorPos). -/
theorem C8_counterexample :
    (stepKey (stepKey (initialInputState true) [63]) upKey).panelVisible ≠
      (stepKey (initialInputState true) [63]).panelVisible := by
  decide

/-- C8 amended: an Up-arrow or Down-arrow keystroke, in any state, never
changes the history sequence, the thinking flags or the waiting flag;
only historyIndex, buffer, cursorPos and the active overlay (which the
keystroke may dismiss) can differ. -/
theorem C8_amended_arrow_frame (s : InputState) :
    ((stepKey s upKey).history = s.history
      ∧ (stepKey s upKey).thinkingEnabled = s.thinkingEnabled
      ∧ (stepKey s upKey).modelSupportsThinking = s.modelSupportsThinking
      ∧ (stepKey s upKey).waiting = s.waiting)
  ∧ ((stepKey s downKey).history = s.history
      ∧ (stepKey s downKey).thinkingEnabled = s.thinkingEnabled
      ∧ (stepKey s downKey).modelSupportsThinking = s.modelSupportsThinking
      ∧ (stepKey s downKey).waiting = s.waiting) := by
  exact ⟨handleKey_frame27 s upKey rfl, handleKey_frame27 s downKey rfl⟩

/- ───────────────────────────────────────────────────────────────────────
   Orchestrator lemmas for C2, C3 and C10
   ─────────────────────────────────────────────────────────────────────── -/

theorem chatLoop_succ (model : ModelFn) (m : MCPState) (tools : List OllamaTool)
    (maxTC fuel : Nat) (acc : LoopAcc)
    (calls : List (Option (List OllamaTool))) :
    chatLoop model m tools maxTC (fuel + 1) acc calls =
      if acc.count < maxTC then
        if (model acc.history
              (if 0 < tools.length then some tools else none)).toolCalls.isEmpty then
          LoopResult.noTools
            { acc with history := acc.history ++
                [(model acc.history
                    (if 0 < tools.length then some tools else none)).message] }
            (calls ++ [if 0 < tools.length then some tools else none])
            (model acc.history (if 0 < tools.length then some tools else none))
        else
          chatLoop model m tools maxTC fuel
            (processToolCalls m
              { acc with history := acc.history ++
                  [(model acc.history
                      (if 0 < tools.length then some tools else none)).message] }
              (model acc.history
                (if 0 < tools.length then some tools else none)).toolCalls)
            (calls ++ [if 0 < tools.length then some tools else none])
      else LoopResult.budget acc calls := rfl

theorem ErrRecorded_grow (acc : LoopAcc) (msgs : List Message)
    (h : ErrRecorded acc) :
    ErrRecorded { acc with history := acc.history ++ msgs } := by
  intro n e hm
  obtain ⟨h1, h2⟩ := h n e hm
  exact ⟨List.mem_append_left _ h1, h2⟩

theorem processToolCalls_err (m : MCPState) :
    ∀ (tcs : List ToolCall) (acc : LoopAcc),
      ErrRecorded acc → ErrRecorded (processToolCalls m acc tcs) := by
  intro tcs
  induction tcs with
  | nil => intro acc h; simpa [processToolCalls] using h
  | cons tc rest ih =>
    intro acc h
    simp only [processToolCalls]
    apply ih
    intro n e hm
    simp only [List.mem_append, List.mem_singleton] at hm
    rcases hm with hold | hnew
    · obtain ⟨h1, h2⟩ := h n e hold
      exact ⟨List.mem_append_left _ h1, List.mem_append_left _ h2⟩
    · rw [Prod.mk.injEq] at hnew
      obtain ⟨hn, hr⟩ := hnew
      constructor
      · apply List.mem_append_right
        rw [← hr]
        exact List.mem_singleton.mpr rfl
      · apply List.mem_append_right
        rw [hn]
        exact List.mem_singleton.mpr rfl

theorem chatLoop_err (model : ModelFn) (m : MCPState) (tools : List OllamaTool)
    (maxTC : Nat) :
    ∀ (fuel : Nat) (acc : LoopAcc) (calls : List (Option (List OllamaTool))),
      ErrRecorded acc →
      ErrRecorded (chatLoop model m tools maxTC fuel acc calls).acc := by
  intro fuel
  induction fuel with
  | zero => intro acc calls h; exact h
  | succ fuel ih =>
    intro acc calls h
    rw [chatLoop_succ]
    set D := if 0 < tools.length then some tools else none with hD
    split_ifs with h1 h2
    · exact ErrRecorded_grow acc _ h
    · exact ih _ _ (processToolCalls_err m _ _ (ErrRecorded_grow acc _ h))
    · exact h

theorem processToolCalls_counts (m : MCPState) :
    ∀ (tcs : List ToolCall) (acc : LoopAcc),
      (processToolCalls m acc tcs).count = acc.count + tcs.length
    ∧ (processToolCalls m acc tcs).dispatches.length
        = acc.dispatches.length + tcs.length := by
  intro tcs
  induction tcs with
  | nil => intro acc; simp [processToolCalls]
  | cons tc rest ih =>
    intro acc
    simp only [processToolCalls, List.length_cons]
    have h := ih
      { history := acc.history ++ [toolMsg (m.callTool tc.name tc.arguments)]
        toolsUsed := acc.toolsUsed ++ [tc.name]
        count := acc.count + 1
        dispatches := acc.dispatches ++ [(tc.name, m.callTool tc.name tc.arguments)] }
    constructor
    · rw [h.1]; dsimp only; omega
    · rw [h.2]; dsimp only
      simp only [List.length_append, List.length_cons, List.length_nil]
      omega

theorem chatLoop_dispatch_bound (model : ModelFn) (m : MCPState)
    (tools : List OllamaTool) (maxTC K : Nat)
    (hK : ∀ h d, ((model h d).toolCalls).length ≤ K) :
    ∀ (fuel : Nat) (acc : LoopAcc) (calls : List (Option (List OllamaTool))),
      acc.count = acc.dispatches.length →
      ((chatLoop model m tools maxTC fuel acc calls).acc).dispatches.length
        ≤ Nat.max acc.dispatches.length ((maxTC - 1) + K) := by
  intro fuel
  induction fuel with
  | zero =>
    intro acc calls hc
    exact Nat.le_max_left _ _
  | succ fuel ih =>
    intro acc calls hc
    rw [chatLoop_succ]
    set D := if 0 < tools.length then some tools else none with hD
    split_ifs with h1 h2
    · exact Nat.le_max_left _ _
    · have hcounts := processToolCalls_counts m (model acc.history D).toolCalls
        { acc with history := acc.history ++ [(model acc.history D).message] }
      have hL := hK acc.history D
      have hsync : (processToolCalls m
          { acc with history := acc.history ++ [(model acc.history D).message] }
          (model acc.history D).toolCalls).count
          = (processToolCalls m
          { acc with history := acc.history ++ [(model acc.history D).message] }
          (model acc.history D).toolCalls).dispatches.length := by
        rw [hcounts.1, hcounts.2]
        dsimp only
        omega
      refine le_trans (ih _ (calls ++ [D]) hsync) ?_
      apply Nat.max_le.mpr
      constructor
      · refine le_trans (le_of_eq hcounts.2) ?_
        refine le_trans ?_ (Nat.le_max_right _ _)
        dsimp only
        omega
      · exact Nat.le_max_right _ _
    · exact Nat.le_max_left _ _

theorem chatLoop_one_tool (model : ModelFn) (m : MCPState)
    (tools : List OllamaTool) (maxTC : Nat) (hT : 0 < tools.length)
    (hone : ∀ h d, ((model h d).toolCalls).length = 1) :
    ∀ (n fuel : Nat) (acc : LoopAcc) (calls : List (Option (List OllamaTool))),
      acc.count + n = maxTC → n < fuel →
      ∃ acc' : LoopAcc,
        chatLoop model m tools maxTC fuel acc calls =
          LoopResult.budget acc' (calls ++ List.replicate n (some tools))
      ∧ acc'.dispatches.length = acc.dispatches.length + n
      ∧ acc'.count = maxTC := by
  intro n
  induction n with
  | zero =>
    intro fuel acc calls hcount hfuel
    cases fuel with
    | zero => omega
    | succ fuel =>
      refine ⟨acc, ?_, by omega, by omega⟩
      rw [chatLoop_succ, if_neg (by omega)]
      simp
  | succ n ih =>
    intro fuel acc calls hcount hfuel
    cases fuel with
    | zero => omega
    | succ fuel =>
      have hTT : (if 0 < tools.length then some tools else none) = some tools :=
        if_pos hT
      rw [chatLoop_succ, if_pos (by omega : acc.count < maxTC), hTT]
      obtain ⟨t, ht⟩ := List.length_eq_one.mp (hone acc.history (some tools))
      rw [ht]
      rw [if_neg (by simp)]
      obtain ⟨acc', hacc', hlen, hcnt⟩ := ih fuel
        (processToolCalls m
          { acc with history := acc.history ++ [(model acc.history (some tools)).message] }
          [t])
        (calls ++ [some tools])
        (by
          rw [(processToolCalls_counts m [t] _).1]
          simp only [List.length_cons, List.length_nil]
          omega)
        (by omega)
      refine ⟨acc', ?_, ?_, hcnt⟩
      · rw [hacc']
        simp [List.replicate_succ]
      · rw [hlen, (processToolCalls_counts m [t] _).2]
        simp only [List.length_cons, List.length_nil]
        omega

theorem finishTurn_budget_trace (model : ModelFn) (st1 : AgentState)
    (acc : LoopAcc) (calls : List (Option (List OllamaTool))) :
    (finishTurn model st1 (LoopResult.budget acc calls)).2.content
      = jsOr (model ((finishTurn model st1
          (LoopResult.budget acc calls)).2.history.dropLast) none).message.content
          "(No response)"
  ∧ (finishTurn model st1 (LoopResult.budget acc calls)).2.budgetExhausted = true
  ∧ (finishTurn model st1 (LoopResult.budget acc calls)).2.calls = calls ++ [none] := by
  refine ⟨?_, rfl, rfl⟩
  simp only [finishTurn]
  rw [List.dropLast_concat]

/-- C3: whenever a tool dispatch inside a turn ends in a thrown error —
including an unregistered tool name or a disconnected server — Agent.chat
appends a tool-role message carrying the stringified error to the
conversation history instead of propagating (the turn always completes,
chat being a total function into a trace), and the failed tool's name is
in the returned toolsUsed list. -/
theorem C3_tool_failure_isolated (model : ModelFn) (m : MCPState)
    (st : AgentState) (input : String) (n e : String)
    (hmem : (n, Except.error e) ∈ (Agent.chat model m st input).2.dispatches) :
    toolMsg (Except.error e) ∈ (Agent.chat model m st input).2.history
  ∧ n ∈ (Agent.chat model m st input).2.toolsUsed := by
  simp only [Agent.chat] at hmem ⊢
  rw [finishTurn_dispatches] at hmem
  have hrec := chatLoop_err model m m.getOllamaTools st.maxToolCalls
    (st.maxToolCalls + 1)
    { history := st.conversationHistory ++ [{ role := "user", content := input }]
      toolsUsed := [], count := 0, dispatches := [] } []
    (by intro a b hm; simp at hm)
  obtain ⟨h1, h2⟩ := hrec n e hmem
  refine ⟨finishTurn_history_mem _ _ _ _ h1, ?_⟩
  rw [finishTurn_toolsUsed]
  exact h2

/-- C3 witness: a model that asks for the unregistered tool nope; the
dispatch fails with Tool not found, the error is recorded in the history,
the turn completes, and nope appears in toolsUsed. -/
theorem C3_witness :
    (("nope", Except.error "Tool not found: nope")
        ∈ (Agent.chat unknownToolModel emptyMCP
            (Agent.startState "sys" 5) "q").2.dispatches)
  ∧ toolMsg (Except.error "Tool not found: nope")
      ∈ (Agent.chat unknownToolModel emptyMCP
          (Agent.startState "sys" 5) "q").2.history
  ∧ "nope" ∈ (Agent.chat unknownToolModel emptyMCP
        (Agent.startState "sys" 5) "q").2.toolsUsed :=
  ⟨by decide,
   (C3_tool_failure_isolated unknownToolModel emptyMCP (Agent.startState "sys" 5)
      "q" "nope" "Tool not found: nope" (by decide)).1,
   (C3_tool_failure_isolated unknownToolModel emptyMCP (Agent.startState "sys" 5)
      "q" "nope" "Tool not found: nope" (by decide)).2⟩

/-- C10: the maxToolCalls budget is checked only between model replies,
so when every reply requests at most K invocations the turn dispatches at
most (maxToolCalls - 1) + K tool calls — a bound that can exceed
maxToolCalls itself, as the witness shows. -/
theorem C10_budget_checked_between_replies (model : ModelFn) (m : MCPState)
    (st : AgentState) (input : String) (K : Nat)
    (hK : ∀ h d, ((model h d).toolCalls).length ≤ K) :
    (Agent.chat model m st input).2.dispatches.length
      ≤ (st.maxToolCalls - 1) + K := by
  simp only [Agent.chat]
  rw [finishTurn_dispatches]
  have h := chatLoop_dispatch_bound model m m.getOllamaTools st.maxToolCalls K hK
    (st.maxToolCalls + 1)
    { history := st.conversationHistory ++ [{ role := "user", content := input }]
      toolsUsed := [], count := 0, dispatches := [] } [] rfl
  simpa using h

/-- C10 witness: with maxToolCalls = 1 and a model requesting two
invocations per reply, the turn dispatches 2 tool calls — more than the
budget — matching the (maxToolCalls - 1) + K bound. -/
theorem C10_witness :
    ((Agent.chat twoToolModel demoMCP (Agent.startState "sys" 1) "q").2.dispatches.length = 2
      ∧ (Agent.startState "sys" 1).maxToolCalls
          < (Agent.chat twoToolModel demoMCP (Agent.startState "sys" 1) "q").2.dispatches.length)
  ∧ (Agent.chat twoToolModel demoMCP (Agent.startState "sys" 1) "q").2.dispatches.length
      ≤ ((Agent.startState "sys" 1).maxToolCalls - 1) + 2 :=
  ⟨by decide,
   C10_budget_checked_between_replies twoToolModel demoMCP
     (Agent.startState "sys" 1) "q" 2 (fun _ _ => Nat.le_refl 2)⟩

/-- C2: with maxToolCalls = 2, a non-empty tool registry and a model that
requests exactly one tool invocation in every reply, one Agent.chat call
dispatches exactly 2 tool calls, makes exactly three model calls — two
with the declarations attached, then one final call with none — and
returns the final call's content, replaced by the literal "(No response)"
when that content is empty. -/
theorem C2_budget_two_termination (model : ModelFn) (m : MCPState)
    (st : AgentState) (input : String)
    (hmax : st.maxToolCalls = 2)
    (hT : 0 < m.getOllamaTools.length)
    (hone : ∀ h d, ((model h d).toolCalls).length = 1) :
    (Agent.chat model m st input).2.dispatches.length = 2
  ∧ (Agent.chat model m st input).2.calls
      = [some m.getOllamaTools, some m.getOllamaTools, none]
  ∧ (Agent.chat model m st input).2.budgetExhausted = true
  ∧ (Agent.chat model m st input).2.content
      = jsOr (model ((Agent.chat model m st input).2.history.dropLast)
            none).message.content "(No response)" := by
  simp only [Agent.chat]
  rw [hmax]
  obtain ⟨acc', hloop, hlen, hcnt⟩ :=
    chatLoop_one_tool model m m.getOllamaTools 2 hT hone 2 (2 + 1)
      { history := st.conversationHistory ++ [{ role := "user", content := input }]
        toolsUsed := [], count := 0, dispatches := [] } []
      rfl (by omega)
  rw [hloop]
  have hft := finishTurn_budget_trace model
    { conversationHistory := st.conversationHistory ++
        [{ role := "user", content := input }]
      chatHistory := st.chatHistory ++
        [{ role := "user", content := input, toolsUsed := none }]
      systemPrompt := st.systemPrompt
      maxToolCalls := 2 }
    acc' ([] ++ List.replicate 2 (some m.getOllamaTools))
  refine ⟨?_, ?_, hft.2.1, hft.1⟩
  · rw [finishTurn_dispatches]
    simpa using hlen
  · rw [hft.2.2]
    simp [List.replicate_succ]

/-- C2 witness: a concrete model requesting one tool per reply against a
one-tool registry with maxToolCalls = 2: two dispatches, three model
calls with declarations on the first two only, and the placeholder
content since the final reply is empty. -/
theorem C2_witness :
    (Agent.chat oneToolModel demoMCP (Agent.startState "sys" 2) "q").2.dispatches.length = 2
  ∧ (Agent.chat oneToolModel demoMCP (Agent.startState "sys" 2) "q").2.calls
      = [some demoMCP.getOllamaTools, some demoMCP.getOllamaTools, none]
  ∧ (Agent.chat oneToolModel demoMCP (Agent.startState "sys" 2) "q").2.budgetExhausted = true
  ∧ (Agent.chat oneToolModel demoMCP (Agent.startState "sys" 2) "q").2.content
      = jsOr (oneToolModel ((Agent.chat oneToolModel demoMCP
            (Agent.startState "sys" 2) "q").2.history.dropLast)
          none).message.content "(No response)" :=
  C2_budget_two_termination oneToolModel demoMCP (Agent.startState "sys" 2) "q"
    rfl (by decide) (fun _ _ => rfl)

end OllamaMcpAgent
